import Mathlib

/-!
Verification of the FinStack knowledge-base service
(`backend/app/knowledge_base.py`): text chunking, search, domain search
wrappers, context assembly for the LLM prompt, and document ingestion.

The Python code is shallowly embedded: strings become `List Char` where
index arithmetic matters, Python `int` becomes `Int` (it is unbounded and
may go negative in the chunker), floats that only ever hold exact decimal
literals or cosine scores become `ℚ`, exceptions become `Except String`,
and the external Pinecone index and the embedding model become function
fields of an `Index` structure or explicit function arguments.  The
`while` loop of `_chunk_text` is embedded with explicit fuel, `none`
meaning the loop has not finished within that fuel (for every fuel, at a
given input, `none` for all fuels witnesses divergence).
-/

namespace KnowledgeBase

/-- Python slice `l[a:b]` for integer indices: negative indices count from
the end, then both bounds are clamped to `[0, len]`; an empty slice results
when the clamped start is not below the clamped end. -/
def pySlice (l : List Char) (a b : Int) : List Char :=
  let n : Int := l.length
  let a2 : Int := if a < 0 then max (n + a) 0 else min a n
  let b2 : Int := if b < 0 then max (n + b) 0 else min b n
  if a2 < b2 then (l.drop a2.toNat).take (b2.toNat - a2.toNat) else []

/-- Index of the last occurrence of `c`, as used by `str.rfind`:
`some i` with `i` the highest index holding `c`, else `none`. -/
def pyRfindAux (c : Char) : List Char → Option Nat
  | [] => none
  | x :: xs =>
    match pyRfindAux c xs with
    | some j => some (j + 1)
    | none => if x = c then some 0 else none

/-- Python `s.rfind(c)`: highest index of `c` in `s`, or `-1` if absent. -/
def pyRfind (l : List Char) (c : Char) : Int :=
  match pyRfindAux c l with
  | some i => (i : Int)
  | none => -1

/-- The ASCII whitespace characters stripped by Python `str.strip()`. -/
def isPySpace (c : Char) : Bool :=
  c = ' ' || c = '\t' || c = '\n' || c = '\r' || c = '\x0b' || c = '\x0c'

/-- Python `s.strip()`: remove leading and trailing whitespace. -/
def pyStrip (l : List Char) : List Char :=
  ((l.dropWhile isPySpace).reverse.dropWhile isPySpace).reverse

/-- One loop body of `_chunk_text`: the chunk taken for the window at
`start` and the (possibly snapped) window end.  Slice a window of
`chunk_size` characters; when the window end falls strictly before the
text end, look for the last period or newline in the window; if that
break point lies past half of `chunk_size` (`break_point > chunk_size *
0.5` in the source, exact because multiplying an int-valued float by 0.5
is exact, so rendered as `break_point * 2 > chunk_size`), cut the chunk
there and move the window end accordingly. -/
def chunkWindow (text : List Char) (chunk_size start : Int) : List Char × Int :=
  let e : Int := start + chunk_size
  let chunk := pySlice text start e
  if e < (text.length : Int) then
    let last_period := pyRfind chunk '.'
    let last_newline := pyRfind chunk '\n'
    let break_point := max last_period last_newline
    if break_point * 2 > chunk_size then
      (pySlice chunk 0 (break_point + 1), start + break_point + 1)
    else
      (chunk, e)
  else
    (chunk, e)

/-- The `while start < text_length` loop of `_chunk_text`, with fuel.
Each iteration takes the window chunk (`chunkWindow`), accumulates it
stripped, and advances the start to `end - chunk_overlap`.  On exit,
chunks that stripped to empty are filtered out.  `none` means the fuel
ran out before the loop exited. -/
def chunkTextGo (fuel : Nat) (text : List Char) (chunk_size chunk_overlap : Int)
    (start : Int) (chunks : List (List Char)) : Option (List (List Char)) :=
  match fuel with
  | 0 => none
  | fuel + 1 =>
    if start < (text.length : Int) then
      let pair := chunkWindow text chunk_size start
      chunkTextGo fuel text chunk_size chunk_overlap (pair.2 - chunk_overlap)
        (pyStrip pair.1 :: chunks)
    else
      some (chunks.reverse.filter (fun c => !c.isEmpty))

/-- `KnowledgeBaseService._chunk_text(text, chunk_size, chunk_overlap)`.
The loop starts at `start = 0` with no accumulated chunks. -/
def chunk_text (fuel : Nat) (text : String) (chunk_size chunk_overlap : Int) :
    Option (List String) :=
  match chunkTextGo fuel text.data chunk_size chunk_overlap 0 [] with
  | none => none
  | some cs => some (cs.map (fun l => String.mk l))

/-- A metadata payload value: Pinecone payloads in this code hold strings
(filename, doc_type, access_level, content) and integers (chunk_index,
total_chunks). -/
inductive MValue where
  | s : String → MValue
  | n : Nat → MValue
deriving DecidableEq

/-- A metadata payload: an association list with first-match lookup,
modelling a Python dict restricted to the operations the source uses. -/
abbrev Metadata := List (String × MValue)

/-- Python `d.get(key)`: the value at `key`, or `None` when absent. -/
def metaGet (m : Metadata) (key : String) : Option MValue :=
  (m.find? (fun p => p.1 == key)).map (fun p => p.2)

/-- Python `d.get(key, default)` where a string is expected: a stored
integer is rendered with `str` as the dynamic code would display it. -/
def metaGetStr (m : Metadata) (key dflt : String) : String :=
  match metaGet m key with
  | some (MValue.s v) => v
  | some (MValue.n v) => toString v
  | none => dflt

/-- One match of a Pinecone query: record id, similarity score, payload. -/
structure PMatch where
  id : String
  score : ℚ
  metadata : Metadata
deriving DecidableEq

/-- One entry of the list returned by `search`: the dict
`{content, score, metadata, id}`; the synthetic results built on the
no-index and query-error paths carry no `id` key, hence `Option`. -/
structure SearchResult where
  content : String
  score : ℚ
  metadata : Metadata
  id : Option String
deriving DecidableEq

/-- A vector prepared by `ingest_document` for upsert:
`{id, values, metadata}`. -/
structure VectorRecord where
  id : String
  values : List ℚ
  metadata : Metadata
deriving DecidableEq

/-- The external Pinecone index, abstracted by the two operations the
source calls on it; `Except.error` models a raised exception. -/
structure Index where
  query : List ℚ → Nat → Option Metadata → Except String (List PMatch)
  upsert : List VectorRecord → Except String Unit

/-- The service state: `index` is `none` when the constructor failed to
connect (`self.index = None`). -/
structure KB where
  index : Option Index

/-- The dict returned by a successful `ingest_document`. -/
structure IngestResult where
  status : String
  chunks_created : Nat
  vectors_upserted : Nat
  filename : String
deriving DecidableEq

/-- Formatting of one Pinecone match inside `search`:
`{content: metadata.get("content", ""), score, metadata, id}`. -/
def formatMatch (m : PMatch) : SearchResult :=
  { content := metaGetStr m.metadata "content" ""
    score := m.score
    metadata := m.metadata
    id := some m.id }

/-- `KnowledgeBaseService.search(query, top_k, filters, user_id)`.
With no index it returns the synthetic not-available result; otherwise it
embeds the query (an embedding failure propagates, it is raised outside
the try block), queries the index, and either formats every match or, if
the query raised, returns the synthetic error result.  `user_id` is
ignored by the V1 code (no access control). -/
def search (kb : KB) (embed : String → Except String (List ℚ)) (query : String)
    (top_k : Nat) (filters : Option Metadata) (user_id : Option String) :
    Except String (List SearchResult) :=
  match kb.index with
  | none =>
    .ok [{ content := "Knowledge base not available. Please run the ingestion script first."
           score := 0
           metadata := []
           id := none }]
  | some idx =>
    match embed query with
    | .error e => .error e
    | .ok query_embedding =>
      match idx.query query_embedding top_k filters with
      | .ok results => .ok (results.map formatMatch)
      | .error e =>
        .ok [{ content := "Error searching knowledge base: " ++ e
               score := 0
               metadata := []
               id := none }]

/-- `search_employees`: `search` with `top_k=5` and
`filters={"doc_type": "employee"}`. -/
def search_employees (kb : KB) (embed : String → Except String (List ℚ))
    (query : String) (user_id : Option String) : Except String (List SearchResult) :=
  search kb embed query 5 (some [("doc_type", MValue.s "employee")]) user_id

/-- `search_customers`: `search` with `top_k=5` and
`filters={"doc_type": "customer"}`. -/
def search_customers (kb : KB) (embed : String → Except String (List ℚ))
    (query : String) (user_id : Option String) : Except String (List SearchResult) :=
  search kb embed query 5 (some [("doc_type", MValue.s "customer")]) user_id

/-- `search_financials`: `search` with `top_k=5` and
`filters={"doc_type": "financial"}`. -/
def search_financials (kb : KB) (embed : String → Except String (List ℚ))
    (query : String) (user_id : Option String) : Except String (List SearchResult) :=
  search kb embed query 5 (some [("doc_type", MValue.s "financial")]) user_id

/-- `search_projects`: `search` with `top_k=5` and
`filters={"doc_type": "project"}`. -/
def search_projects (kb : KB) (embed : String → Except String (List ℚ))
    (query : String) (user_id : Option String) : Except String (List SearchResult) :=
  search kb embed query 5 (some [("doc_type", MValue.s "project")]) user_id

/-- Python `f"{x:.2f}"` for the nonnegative scores formatted by
`get_context_for_llm`: two fractional digits. -/
def fmtScore2 (q : ℚ) : String :=
  let n : Int := ⌊q * 100 + 1 / 2⌋
  let ip := n / 100
  let fp := (n % 100).toNat
  toString ip ++ "." ++ (if fp < 10 then "0" ++ toString fp else toString fp)

/-- The optional `[Access Level: ...]` line: appended when
`result["metadata"].get("access_level")` is truthy (present and not the
empty string or zero). -/
def accessTag (m : Metadata) : List String :=
  match metaGet m "access_level" with
  | some (MValue.s v) => if v = "" then [] else ["[Access Level: " ++ v ++ "]"]
  | some (MValue.n k) => if k = 0 then [] else ["[Access Level: " ++ toString k ++ "]"]
  | none => []

/-- The `for i, result in enumerate(results, 1)` loop of
`get_context_for_llm`: stop (`break`) at the first result whose score is
below 0.3, otherwise append the source label, the content, and the
optional access-level tag. -/
def contextLoop : List SearchResult → Nat → List String
  | [], _ => []
  | r :: rs, i =>
    if r.score < 3 / 10 then []
    else
      (("\n[Source " ++ toString i ++ "] (Relevance: " ++ fmtScore2 r.score ++ ")")
          :: r.content :: accessTag r.metadata)
        ++ contextLoop rs (i + 1)

/-- The part of `get_context_for_llm` after the `search` call: the empty
or low-top-score check returning the fixed sentinel, else the header
joined with the loop output by newlines. -/
def assembleContext (results : List SearchResult) : String :=
  match results with
  | [] => "No relevant information found in knowledge base."
  | r :: _ =>
    if r.score < 3 / 10 then "No relevant information found in knowledge base."
    else
      String.intercalate "\n"
        ("Here is relevant information from the knowledge base:\n"
          :: contextLoop results 1)

/-- `KnowledgeBaseService.get_context_for_llm(query, user_id, max_results)`:
search with `top_k = max_results` and no filters, then assemble. -/
def get_context_for_llm (kb : KB) (embed : String → Except String (List ℚ))
    (query : String) (user_id : Option String) (max_results : Nat) :
    Except String String :=
  match search kb embed query max_results none user_id with
  | .error e => .error e
  | .ok results => .ok (assembleContext results)

/-- The vector-building loop of `ingest_document`: for each chunk in
order, embed it (a failure propagates) and build the record with id
`f"{filename(default doc)}_{uuid4().hex[:8]}_{i}"` — `uuidHex i` models
the i-th random draw — and metadata `{**metadata, content, chunk_index,
total_chunks}`, the three reserved keys overriding caller keys. -/
def buildVectors (embed : String → Except String (List ℚ)) (uuidHex : Nat → String)
    (fname : String) (metadata : Metadata) (total : Nat) :
    List String → Nat → Except String (List VectorRecord)
  | [], _ => .ok []
  | c :: cs, i =>
    match embed c with
    | .error e => .error e
    | .ok emb =>
      match buildVectors embed uuidHex fname metadata total cs (i + 1) with
      | .error e => .error e
      | .ok rest =>
        .ok ({ id := fname ++ "_" ++ uuidHex i ++ "_" ++ toString i
               values := emb
               metadata := [("content", MValue.s c), ("chunk_index", MValue.n i),
                 ("total_chunks", MValue.n total)] ++ metadata } :: rest)

/-- Structural helper for `toBatches`: the first argument is a bound on
the remaining list length, so the recursion is structural (and hence
reduces definitionally); each step peels off one batch of up to 100
records. -/
def toBatchesGo : Nat → List VectorRecord → List (List VectorRecord)
  | _, [] => []
  | 0, _ :: _ => []
  | f + 1, v :: vs => (v :: vs.take 99) :: toBatchesGo f (vs.drop 99)

/-- `vectors[i:i+100]` batching of the upsert loop
(`for i in range(0, len(vectors), batch_size)` with `batch_size = 100`):
consecutive slices of at most 100 records.  The length of the list
itself bounds the number of batches, so it serves as structural fuel. -/
def toBatches (l : List VectorRecord) : List (List VectorRecord) :=
  toBatchesGo l.length l

/-- The batch upsert loop: `self.index.upsert(vectors=batch)` per batch,
a raised exception propagating immediately. -/
def upsertLoop (up : List VectorRecord → Except String Unit) :
    List (List VectorRecord) → Except String Unit
  | [] => .ok ()
  | b :: bs =>
    match up b with
    | .error e => .error e
    | .ok _ => upsertLoop up bs

/-- `KnowledgeBaseService.ingest_document(content, metadata, chunk_size,
chunk_overlap)`: raise when the index is missing, chunk the content
(fuel-bounded: `none` when `_chunk_text` diverges), embed each chunk into
a vector record, upsert in batches of 100, and report
`{status: success, chunks_created, vectors_upserted, filename}`. -/
def ingest_document (fuel : Nat) (kb : KB) (embed : String → Except String (List ℚ))
    (uuidHex : Nat → String) (content : String) (metadata : Metadata)
    (chunk_size chunk_overlap : Int) : Option (Except String IngestResult) :=
  match kb.index with
  | none => some (.error "Pinecone index not available")
  | some idx =>
    match chunk_text fuel content chunk_size chunk_overlap with
    | none => none
    | some chunks =>
      some (
        match buildVectors embed uuidHex (metaGetStr metadata "filename" "doc")
            metadata chunks.length chunks 0 with
        | .error e => .error e
        | .ok vectors =>
          match upsertLoop idx.upsert (toBatches vectors) with
          | .error e => .error e
          | .ok _ =>
            .ok { status := "success"
                  chunks_created := chunks.length
                  vectors_upserted := vectors.length
                  filename := metaGetStr metadata "filename" "unknown" })

/-! Concrete collaborators used to evaluate the model at specific inputs. -/

/-- An embedding model that always succeeds with a fixed vector. -/
def embedC : String → Except String (List ℚ) := fun _ => .ok [1]

/-- A fixed uuid draw. -/
def uuidC : Nat → String := fun _ => "deadbeef"

/-- An index whose query returns no matches and whose upsert succeeds. -/
def idxC : Index :=
  { query := fun _ _ _ => .ok []
    upsert := fun _ => .ok () }

/-- An index whose upsert always raises. -/
def idxFail : Index :=
  { query := fun _ _ _ => .ok []
    upsert := fun _ => .error "upsert failed" }

/-- An index returning one match whose payload has no `content` field. -/
def idxMissing : Index :=
  { query := fun _ _ _ =>
      .ok [{ id := "m1", score := 9 / 10, metadata := [("filename", MValue.s "f.txt")] }]
    upsert := fun _ => .ok () }

/-- An index returning one genuine zero-relevance match with an empty
payload. -/
def idxZero : Index :=
  { query := fun _ _ _ => .ok [{ id := "m1", score := 0, metadata := [] }]
    upsert := fun _ => .ok () }

/-- A text on which `_chunk_text` with `chunk_size = 10` and
`chunk_overlap = 9` cycles forever: the window `[0,10)` is snapped at the
period (index 6), so the next start is `7 - 9 = -2`; the two following
windows slice emptily (Python negative indices) and bring the start back
to `0`. -/
def loopText : String := "abcdef.zzzzzzzzzzzzzz"

example : chunk_text 3 "ab" 3 2 = some ["ab", "b"] := by rfl
example : chunk_text 2 "ab" 5 2 = some ["ab"] := by rfl
example : chunk_text 2 "   " 500 50 = some [] := by rfl
example : chunkTextGo 4 loopText.data 10 9 0 [] = none := by rfl
example : chunkTextGo 4 "hello".data 10 10 0 [] = none := by rfl
example : chunkTextGo 2 "hello".data 10 10 0 []
    = chunkTextGo 1 "hello".data 10 10 0 [['h','e','l','l','o']] := by rfl
example : chunkTextGo 2 loopText.data 10 9 0 []
    = chunkTextGo 1 loopText.data 10 9 (-2) [['a','b','c','d','e','f','.']] := by rfl
example : chunkTextGo 2 loopText.data 10 9 (-2) []
    = chunkTextGo 1 loopText.data 10 9 (-1) [[]] := by rfl
example : chunkTextGo 2 loopText.data 10 9 (-1) []
    = chunkTextGo 1 loopText.data 10 9 0 [[]] := by rfl

/-- With `chunk_overlap = chunk_size = 10` on `"hello"`, every loop
iteration maps `start = 0` back to `start = 0`, so no fuel suffices. -/
lemma chunkTextGo_hello_cycle :
    ∀ (fuel : Nat) (acc : List (List Char)),
      chunkTextGo fuel "hello".data 10 10 0 acc = none := by
  intro fuel
  induction fuel with
  | zero => intro acc; rfl
  | succ n ih =>
    intro acc
    show chunkTextGo n "hello".data 10 10 0 (['h', 'e', 'l', 'l', 'o'] :: acc) = none
    exact ih _

/-- C1: the claim states that `_chunk_text` raises an error (rather than
looping forever) when `chunk_overlap >= chunk_size`, and that the window
start makes strictly positive progress for every `0 < chunk_overlap <
chunk_size`.  The code has no such guard: at `text = "hello"`,
`chunk_size = 10`, `chunk_overlap = 10`, the window start stays at `0`
forever, so the loop neither errors nor terminates — for every fuel bound
the loop is still running.  (`chunk_text_neg_progress_diverges` refutes
the second half at `0 < overlap < size`.) -/
theorem chunk_text_overlap_ge_size_diverges :
    ∀ fuel : Nat, chunk_text fuel "hello" 10 10 = none := by
  intro fuel
  unfold chunk_text
  rw [chunkTextGo_hello_cycle]

/-- With `chunk_size = 10`, `chunk_overlap = 9` on `loopText`, the window
start cycles `0 → -2 → -1 → 0` forever: the first window is snapped at
the period at index 6 (progress `7 - 9 = -2 < 0`), and the two windows at
negative starts produce empty Python slices and creep back to start 0. -/
lemma chunkTextGo_loopText_cycle :
    ∀ (fuel : Nat) (acc : List (List Char)),
      chunkTextGo fuel loopText.data 10 9 0 acc = none ∧
      chunkTextGo fuel loopText.data 10 9 (-2) acc = none ∧
      chunkTextGo fuel loopText.data 10 9 (-1) acc = none := by
  intro fuel
  induction fuel with
  | zero => intro acc; exact ⟨rfl, rfl, rfl⟩
  | succ n ih =>
    intro acc
    refine ⟨?_, ?_, ?_⟩
    · show chunkTextGo n loopText.data 10 9 (-2)
          (['a', 'b', 'c', 'd', 'e', 'f', '.'] :: acc) = none
      exact (ih _).2.1
    · show chunkTextGo n loopText.data 10 9 (-1) ([] :: acc) = none
      exact (ih _).2.2
    · show chunkTextGo n loopText.data 10 9 0 ([] :: acc) = none
      exact (ih _).1

/-- C2: the claim quantifies over every text and every
`0 < chunk_overlap < chunk_size` and asserts the returned chunks recover
the original characters.  At `text = loopText`, `chunk_size = 10`,
`chunk_overlap = 9` (which satisfies `0 < 9 < 10`) the loop never
returns at all: the boundary-snapping step makes negative progress and
the start cycles `0 → -2 → -1 → 0`, so there are no returned chunks for
any fuel bound and the reconstruction property fails. -/
theorem chunk_text_neg_progress_diverges :
    ∀ fuel : Nat, chunk_text fuel loopText 10 9 = none := by
  intro fuel
  unfold chunk_text
  rw [(chunkTextGo_loopText_cycle fuel []).1]

/-- C9: each domain-specific search is definitionally the generic
`search` with `top_k = 5` and the single exact-match filter
`doc_type == "employee"/"customer"/"financial"/"project"`. -/
theorem domain_search_wrappers (kb : KB) (embed : String → Except String (List ℚ))
    (q : String) (u : Option String) :
    search_employees kb embed q u
        = search kb embed q 5 (some [("doc_type", MValue.s "employee")]) u ∧
      search_customers kb embed q u
        = search kb embed q 5 (some [("doc_type", MValue.s "customer")]) u ∧
      search_financials kb embed q u
        = search kb embed q 5 (some [("doc_type", MValue.s "financial")]) u ∧
      search_projects kb embed q u
        = search kb embed q 5 (some [("doc_type", MValue.s "project")]) u :=
  ⟨rfl, rfl, rfl, rfl⟩

/-- C4 counterexample: the synthetic no-index result carries an *empty*
metadata payload — there is no sentinel metadata flag — and a genuine
zero-relevance match (score 0 with an empty stored payload, from
`idxZero`) has exactly the same metadata, so no metadata flag can
distinguish the two, contrary to the claim. -/
theorem search_no_index_has_no_sentinel_flag :
    search ⟨none⟩ embedC "q" 5 none none
        = .ok [{ content := "Knowledge base not available. Please run the ingestion script first."
                 score := 0
                 metadata := []
                 id := none }] ∧
      search ⟨some idxZero⟩ embedC "q" 5 none none
        = .ok [{ content := "", score := 0, metadata := [], id := some "m1" }] :=
  ⟨rfl, rfl⟩

/-- C4 amended: whenever the index is unavailable, `search` returns (does
not raise) exactly one synthetic SearchResult with score 0.0, the
explanatory message, an empty metadata payload and no record id; the
synthetic result carries no sentinel metadata flag, and what does
distinguish it from every genuine formatted match is its absent id
(every genuine match is formatted with `id = some`). -/
theorem search_no_index_synthetic_result (embed : String → Except String (List ℚ))
    (q : String) (top_k : Nat) (filters : Option Metadata) (u : Option String) :
    search ⟨none⟩ embed q top_k filters u
        = .ok [{ content := "Knowledge base not available. Please run the ingestion script first."
                 score := 0
                 metadata := []
                 id := none }] ∧
      ∀ m : PMatch, (formatMatch m).id = some m.id :=
  ⟨rfl, fun _ => rfl⟩

/-- C6 counterexample: a returned match whose payload lacks the required
`content` field is *not* skipped: `search` includes it in the results
with `content` defaulted to the empty string by `metadata.get("content",
"")`. -/
theorem search_includes_malformed_match :
    search ⟨some idxMissing⟩ embedC "q" 5 none none
      = .ok [{ content := ""
               score := 9 / 10
               metadata := [("filename", MValue.s "f.txt")]
               id := some "m1" }] :=
  rfl

/-- C5 counterexample: two ingestions that differ only in the document
filename fail with byte-identical errors — the raw store error
propagates and carries no filename at all, contrary to the claim that
the error names the document that failed. -/
theorem ingest_document_error_lacks_filename :
    ingest_document 2 ⟨some idxFail⟩ embedC uuidC "hi"
        [("filename", MValue.s "report.txt")] 500 50
        = some (.error "upsert failed") ∧
      ingest_document 2 ⟨some idxFail⟩ embedC uuidC "hi"
        [("filename", MValue.s "other.txt")] 500 50
        = some (.error "upsert failed") :=
  ⟨by rfl, by rfl⟩

/-- The `break` in the context loop processes exactly the longest prefix
of results whose scores stay at or above the 0.3 threshold. -/
lemma contextLoop_takeWhile (l : List SearchResult) :
    ∀ i : Nat,
      contextLoop l i
        = contextLoop (l.takeWhile (fun r => decide ((3 : ℚ) / 10 ≤ r.score))) i := by
  induction l with
  | nil => intro i; rfl
  | cons r rs ih =>
    intro i
    by_cases h : r.score < 3 / 10
    · have hd : (decide ((3 : ℚ) / 10 ≤ r.score)) = false := by
        simp [not_le.mpr h]
      simp [contextLoop, List.takeWhile_cons, h, hd]
    · have hd : (decide ((3 : ℚ) / 10 ≤ r.score)) = true := by
        simp [not_lt.mp h]
      simp [contextLoop, List.takeWhile_cons, h, hd, ih]

/-- C7: context assembly at threshold 0.3.  If the results are empty or
the first (top) score is below `3/10`, the output is exactly the fixed
sentinel string (a pure function of the results, hence byte-for-byte
stable across calls); and the loop output only depends on — and includes,
in order — the longest prefix of results with score at or above `3/10`,
so no included result is ranked below an excluded one. -/
theorem assembleContext_threshold (results : List SearchResult) :
    ((results = [] ∨ ∃ r rs, results = r :: rs ∧ r.score < 3 / 10) →
        assembleContext results = "No relevant information found in knowledge base.") ∧
      contextLoop results 1
        = contextLoop (results.takeWhile (fun r => decide ((3 : ℚ) / 10 ≤ r.score))) 1 ∧
      ∀ r rs, results = r :: rs → ¬ (r.score < 3 / 10) →
        assembleContext results
          = String.intercalate "\n"
            ("Here is relevant information from the knowledge base:\n"
              :: contextLoop
                (results.takeWhile (fun r => decide ((3 : ℚ) / 10 ≤ r.score))) 1) := by
  refine ⟨?_, contextLoop_takeWhile results 1, ?_⟩
  · rintro (rfl | ⟨r, rs, rfl, hr⟩)
    · rfl
    · simp [assembleContext, hr]
  · rintro r rs rfl hr
    rw [← contextLoop_takeWhile (r :: rs) 1]
    simp [assembleContext, hr]

/-- C7 witness: a single result with score 0.29 is below the threshold
and assembles to the sentinel (the spec boundary test); a single result
with score 0.5 assembles to the header and the loop output over the
above-threshold prefix. -/
theorem assembleContext_threshold_witness :
    assembleContext [{ content := "x", score := 29 / 100, metadata := [], id := none }]
        = "No relevant information found in knowledge base." ∧
      assembleContext [{ content := "y", score := 1 / 2, metadata := [], id := none }]
        = String.intercalate "\n"
          ("Here is relevant information from the knowledge base:\n"
            :: contextLoop
              ([({ content := "y", score := 1 / 2, metadata := [], id := none }
                : SearchResult)].takeWhile (fun r => decide ((3 : ℚ) / 10 ≤ r.score))) 1) :=
  ⟨(assembleContext_threshold _).1 (Or.inr ⟨_, _, rfl, by norm_num⟩),
    (assembleContext_threshold _).2.2 _ _ rfl (by norm_num)⟩

/-- C10: with the index unavailable, `get_context_for_llm` returns
exactly the no-relevant-information sentinel (the synthetic result has
score 0.0, below 0.3); and a present store whose query matches nothing
produces the very same string, so the two are indistinguishable at the
assembled-context level. -/
theorem get_context_no_index_sentinel (embed : String → Except String (List ℚ))
    (q : String) (u : Option String) (n : Nat) :
    get_context_for_llm ⟨none⟩ embed q u n
        = .ok "No relevant information found in knowledge base." ∧
      ∀ (idx : Index) (qe : List ℚ), embed q = .ok qe → idx.query qe n none = .ok [] →
        get_context_for_llm ⟨some idx⟩ embed q u n
          = .ok "No relevant information found in knowledge base." := by
  constructor
  · simp only [get_context_for_llm, search]
    norm_num [assembleContext]
  · intro idx qe h1 h2
    simp only [get_context_for_llm, search, h1, h2, List.map_nil]
    rfl

/-- C10 witness: concrete embedder and empty-matching index. -/
theorem get_context_no_index_sentinel_witness :
    embedC "q" = .ok [1] ∧ idxC.query [1] 3 none = .ok ([] : List PMatch) ∧
      get_context_for_llm ⟨some idxC⟩ embedC "q" none 3
        = .ok "No relevant information found in knowledge base." :=
  ⟨rfl, rfl, (get_context_no_index_sentinel embedC "q" none 3).2 idxC [1] rfl rfl⟩

/-- C6 amended: a match whose payload lacks required fields is neither
skipped nor fatal: when the store query succeeds, `search` returns one
formatted result per match — malformed ones included — and a match with
no `content` field is formatted with content defaulted to the empty
string.  (No warning is logged for it; the code prints every match the
same way.) -/
theorem search_formats_all_matches (idx : Index)
    (embed : String → Except String (List ℚ)) (q : String) (top_k : Nat)
    (filters : Option Metadata) (u : Option String) (qe : List ℚ) (ms : List PMatch)
    (he : embed q = .ok qe) (hq : idx.query qe top_k filters = .ok ms) :
    search ⟨some idx⟩ embed q top_k filters u = .ok (ms.map formatMatch) ∧
      ∀ m ∈ ms, metaGet m.metadata "content" = none → (formatMatch m).content = "" := by
  constructor
  · simp only [search, he, hq]
  · intro m _ h
    simp [formatMatch, metaGetStr, h]

/-- C6 witness: the match with a payload missing `content` is returned,
formatted, not skipped. -/
theorem search_formats_all_matches_witness :
    embedC "q" = .ok [1] ∧
      idxMissing.query [1] 5 none
        = .ok [{ id := "m1", score := 9 / 10, metadata := [("filename", MValue.s "f.txt")] }] ∧
      search ⟨some idxMissing⟩ embedC "q" 5 none none
        = .ok
          ([({ id := "m1", score := 9 / 10, metadata := [("filename", MValue.s "f.txt")] }
            : PMatch)].map formatMatch) :=
  ⟨rfl, rfl,
    (search_formats_all_matches idxMissing embedC "q" 5 none none [1] _ rfl rfl).1⟩

/-- C5 amended: if any batch upsert fails, the whole ingestion fails —
the caller gets the store error and never a success result — but the
error is the store's raw exception, unchanged, and does not carry the
filename of the document (the code wraps nothing around
`self.index.upsert`). -/
theorem ingest_document_upsert_failure_aborts (fuel : Nat) (idx : Index)
    (embed : String → Except String (List ℚ)) (uuidHex : Nat → String)
    (content : String) (metadata : Metadata) (cs co : Int) (chunks : List String)
    (vectors : List VectorRecord) (e : String)
    (hc : chunk_text fuel content cs co = some chunks)
    (hv : buildVectors embed uuidHex (metaGetStr metadata "filename" "doc")
        metadata chunks.length chunks 0 = .ok vectors)
    (hu : upsertLoop idx.upsert (toBatches vectors) = .error e) :
    ingest_document fuel ⟨some idx⟩ embed uuidHex content metadata cs co
      = some (.error e) := by
  simp only [ingest_document, hc, hv, hu]

/-- C5 witness: one chunk, one vector, failing upsert — the ingestion
result is exactly the raw store error. -/
theorem ingest_document_upsert_failure_witness :
    chunk_text 2 "hi" 500 50 = some ["hi"] ∧
      ingest_document 2 ⟨some idxFail⟩ embedC uuidC "hi" [] 500 50
        = some (.error "upsert failed") :=
  ⟨by rfl,
    ingest_document_upsert_failure_aborts 2 idxFail embedC uuidC "hi" [] 500 50 ["hi"]
      [{ id := "doc_deadbeef_0", values := [1],
         metadata := [("content", MValue.s "hi"), ("chunk_index", MValue.n 0),
           ("total_chunks", MValue.n 1)] }]
      "upsert failed" (by rfl) (by rfl) (by rfl)⟩

/-- A slice from index 0 whose right bound covers the whole list is the
list itself. -/
lemma pySlice_zero_ge (l : List Char) (b : Int) (hb : (l.length : Int) ≤ b) :
    pySlice l 0 b = l := by
  simp only [pySlice]
  have h00 : ¬ ((0 : Int) < 0) := lt_irrefl 0
  have hb0 : ¬ (b < 0) := by omega
  rw [if_neg h00, if_neg hb0]
  have hmin1 : min (0 : Int) (l.length : Int) = 0 := min_eq_left (by omega)
  have hmin2 : min b (l.length : Int) = (l.length : Int) := min_eq_right hb
  rw [hmin1, hmin2]
  by_cases h : (0 : Int) < (l.length : Int)
  · rw [if_pos h]
    simp [Int.toNat_natCast]
  · rw [if_neg h]
    have hl : l.length = 0 := by omega
    exact (List.length_eq_zero.mp hl).symm

/-- A Python slice is either empty or a contiguous `take` of a `drop`. -/
lemma pySlice_cases (l : List Char) (a b : Int) :
    pySlice l a b = [] ∨ ∃ m n : Nat, pySlice l a b = (l.drop m).take n := by
  simp only [pySlice]
  repeat' split
  all_goals
    first
      | right; exact ⟨_, _, rfl⟩
      | left; rfl

/-- Every character of a Python slice is a character of the sliced list. -/
lemma mem_of_mem_pySlice {x : Char} {l : List Char} {a b : Int}
    (h : x ∈ pySlice l a b) : x ∈ l := by
  rcases pySlice_cases l a b with hc | ⟨m, n, hc⟩
  · rw [hc] at h
    cases h
  · rw [hc] at h
    exact List.mem_of_mem_drop (List.mem_of_mem_take h)

/-- C8 counterexample: the text `"ab"` is non-empty and has length
`2 ≤ chunk_size = 3`, with `0 < chunk_overlap = 2 < 3`, yet `_chunk_text`
returns two chunks: the first window takes the whole text but the next
start is `3 - 2 = 1 < 2`, so a second (overlapping) window is emitted. -/
theorem chunk_text_short_text_two_chunks :
    chunk_text 3 "ab" 3 2 = some ["ab", "b"] := by rfl

/-- C8 amended: one chunk is guaranteed when the text length is at most
`chunk_size - chunk_overlap` (so that the advanced start `chunk_size -
chunk_overlap` already reaches past the text) and the text does not strip
to empty (else the chunk is filtered out and none are returned); the
single chunk is the stripped text. -/
theorem chunk_text_single_chunk (fuel : Nat) (text : String) (cs co : Int)
    (h1 : 0 < co) (h2 : co < cs)
    (h3 : (text.data.length : Int) ≤ cs - co)
    (h4 : pyStrip text.data ≠ []) :
    chunk_text (fuel + 2) text cs co = some [String.mk (pyStrip text.data)] := by
  have hne : text.data ≠ [] := by
    intro h
    exact h4 (by rw [h]; rfl)
  have hpos : (0 : Int) < (text.data.length : Int) := by
    have := List.length_pos.mpr hne
    omega
  have hwin : chunkWindow text.data cs 0 = (text.data, 0 + cs) := by
    unfold chunkWindow
    rw [if_neg (by omega : ¬ (0 + cs < (text.data.length : Int)))]
    rw [pySlice_zero_ge text.data (0 + cs) (by omega)]
  unfold chunk_text
  rw [show chunkTextGo (fuel + 2) text.data cs co 0 [] =
      chunkTextGo (fuel + 1) text.data cs co
        ((chunkWindow text.data cs 0).2 - co)
        [pyStrip (chunkWindow text.data cs 0).1] from by
    rw [chunkTextGo, if_pos hpos]]
  rw [hwin]
  rw [show chunkTextGo (fuel + 1) text.data cs co (0 + cs - co) [pyStrip text.data] =
      some (([pyStrip text.data].reverse).filter (fun c => !c.isEmpty)) from by
    rw [chunkTextGo, if_neg (by omega : ¬ (0 + cs - co < (text.data.length : Int)))]]
  have hemp : (pyStrip text.data).isEmpty = false := by
    cases hps : pyStrip text.data with
    | nil => exact absurd hps h4
    | cons a t => rfl
  simp [List.filter, hemp]

/-- C8 witness: `"ab"` with `chunk_size = 5`, `chunk_overlap = 2`
satisfies the amended hypotheses and yields the single chunk `"ab"`. -/
theorem chunk_text_single_chunk_witness :
    ((0 : Int) < 2 ∧ (2 : Int) < 5 ∧ (("ab".data.length : Int) ≤ 5 - 2)
        ∧ pyStrip "ab".data ≠ []) ∧
      chunk_text 2 "ab" 5 2 = some [String.mk (pyStrip "ab".data)] :=
  ⟨⟨by decide, by decide, by decide, by decide⟩,
    chunk_text_single_chunk 0 "ab" 5 2 (by decide) (by decide) (by decide) (by decide)⟩

/-- A list stripping to empty consists of whitespace only. -/
lemma all_space_of_pyStrip_eq_nil {l : List Char} (h : pyStrip l = []) :
    ∀ c ∈ l, isPySpace c := by
  unfold pyStrip at h
  rw [List.reverse_eq_nil_iff, List.dropWhile_eq_nil_iff] at h
  have hd : ∀ c ∈ l.dropWhile isPySpace, isPySpace c := by
    intro c hc
    exact h c (List.mem_reverse.mpr hc)
  intro c hc
  rw [← List.takeWhile_append_dropWhile isPySpace l, List.mem_append] at hc
  rcases hc with hc | hc
  · exact List.mem_takeWhile_imp hc
  · exact hd c hc

/-- A list of whitespace only strips to empty. -/
lemma pyStrip_eq_nil_of_all {l : List Char} (h : ∀ c ∈ l, isPySpace c) :
    pyStrip l = [] := by
  unfold pyStrip
  rw [List.dropWhile_eq_nil_iff.mpr h]
  rfl

/-- On whitespace-only text, every chunk the loop ever accumulates strips
to empty, so whenever the loop returns, the filtered chunk list is empty. -/
lemma chunkTextGo_all_space (text : List Char) (hsp : ∀ c ∈ text, isPySpace c) :
    ∀ (fuel : Nat) (cs co start : Int) (acc r : List (List Char)),
      (∀ ch ∈ acc, ch = ([] : List Char)) →
      chunkTextGo fuel text cs co start acc = some r → r = [] := by
  intro fuel
  induction fuel with
  | zero =>
    intro cs co start acc r hacc h
    simp [chunkTextGo] at h
  | succ n ih =>
    intro cs co start acc r hacc h
    rw [chunkTextGo] at h
    by_cases hlt : start < (text.length : Int)
    · rw [if_pos hlt] at h
      refine ih cs co _ _ r ?_ h
      intro ch hch
      rcases List.mem_cons.mp hch with hch | hch
      · subst hch
        refine pyStrip_eq_nil_of_all ?_
        intro c hc
        refine hsp c ?_
        simp only [chunkWindow] at hc
        split at hc
        · split at hc
          · exact mem_of_mem_pySlice (mem_of_mem_pySlice hc)
          · exact mem_of_mem_pySlice hc
        · exact mem_of_mem_pySlice hc
      · exact hacc ch hch
    · rw [if_neg hlt] at h
      injection h with h
      rw [← h]
      rw [List.filter_eq_nil_iff]
      intro a ha
      have : a = ([] : List Char) := hacc a (List.mem_reverse.mp ha)
      subst this
      simp

/-- C3 counterexample: `ingest_document` with whitespace-only content
returns a success result with zero chunks and zero vectors — there is no
empty-document check and no `EmptyDocument` error anywhere in the code. -/
theorem ingest_document_empty_content_succeeds :
    ingest_document 2 ⟨some idxC⟩ embedC uuidC "   "
        [("filename", MValue.s "empty.txt")] 500 50
      = some (.ok
        { status := "success", chunks_created := 0, vectors_upserted := 0,
          filename := "empty.txt" }) := by rfl

/-- C3 amended: with the default chunk parameters and an available index,
`ingest_document` on content that is empty after trimming whitespace does
not fail: whenever it returns, it reports success with `chunks_created =
0` and `vectors_upserted = 0` (every window strips to empty and is
filtered out, so nothing is embedded or upserted). -/
theorem ingest_document_empty_after_trim (fuel : Nat) (idx : Index)
    (embed : String → Except String (List ℚ)) (uuidHex : Nat → String)
    (content : String) (metadata : Metadata) (res : Except String IngestResult)
    (hsp : pyStrip content.data = [])
    (hres : ingest_document fuel ⟨some idx⟩ embed uuidHex content metadata 500 50
        = some res) :
    res = .ok
      { status := "success", chunks_created := 0, vectors_upserted := 0,
        filename := metaGetStr metadata "filename" "unknown" } := by
  have hall : ∀ c ∈ content.data, isPySpace c := all_space_of_pyStrip_eq_nil hsp
  unfold ingest_document at hres
  cases hct : chunk_text fuel content 500 50 with
  | none =>
    rw [hct] at hres
    cases hres
  | some chunks =>
    rw [hct] at hres
    have hch : chunks = [] := by
      unfold chunk_text at hct
      cases hgo : chunkTextGo fuel content.data 500 50 0 [] with
      | none => rw [hgo] at hct; cases hct
      | some cs =>
        rw [hgo] at hct
        have hcs : cs = [] :=
          chunkTextGo_all_space content.data hall fuel 500 50 0 [] cs
            (by intro ch h; cases h) hgo
        injection hct with hct
        rw [← hct, hcs]
        rfl
    subst hch
    simp only [buildVectors, toBatches, toBatchesGo, upsertLoop, List.length_nil] at hres
    injection hres with hres
    exact hres.symm

/-- C3 witness: three spaces strip to empty; the concrete ingestion
reports success with zero chunks. -/
theorem ingest_document_empty_after_trim_witness :
    pyStrip "   ".data = [] ∧
      (Except.ok
          { status := "success", chunks_created := 0, vectors_upserted := 0,
            filename := "empty.txt" } : Except String IngestResult)
        = .ok
          { status := "success", chunks_created := 0, vectors_upserted := 0,
            filename := metaGetStr [("filename", MValue.s "empty.txt")] "filename" "unknown" } :=
  ⟨by decide,
    ingest_document_empty_after_trim 2 idxC embedC uuidC "   "
      [("filename", MValue.s "empty.txt")] _ (by decide) (by rfl)⟩

end KnowledgeBase
